import Mathlib

/-!
# Verification of the mysticeti-spec trace visualizer

Shallow embedding of `src/visualizer/src/main.rs`: the data model, the
geometry mapper `coordinates`, the status→color table `color_from_status`,
the log pretty-printer `show_log`, the DAG layout builder `draw_dag`
(modelled as a pure function producing a draw-list, returning `none` where
the Rust code panics), and the navigation behaviour of `main`'s event loop
(modelled as a function over a script of input events).

Rust `f64` coordinates are modelled by exact rationals (`ℚ`); on the
small-integer (authority, round) domain occurring in traces every `f64`
operation the code performs is exact, so the rational model is faithful
there.  Rust `HashMap` iteration is modelled by association lists in the
map's iteration order.
-/

namespace Visualizer

/-- `BlockReference` from main.rs: authority, round (`BigInt`) and a label.
Equality is structural (derived `PartialEq`). -/
structure BlockReference where
  authority : Int
  round : Int
  label : String
deriving DecidableEq

/-- `ProposerSlotState` from main.rs. -/
inductive ProposerSlotState where
  | Commit
  | Skip
  | Undecided
deriving DecidableEq

/-- `StatementBlock` from main.rs: its own reference plus parent references. -/
structure StatementBlock where
  reference : BlockReference
  parents : List BlockReference
deriving DecidableEq

/-- `type Edge = (String, String)` from main.rs. -/
abbrev Edge := String × String

/-- `DirectDecisionFields` from main.rs. -/
structure DirectDecisionFields where
  certificate_blocks : List String
  supporting_edges : List Edge
deriving DecidableEq

/-- `IndirectDecisionFields` from main.rs. -/
structure IndirectDecisionFields where
  anchor : String
  edges : List Edge
deriving DecidableEq

/-- The `Log` enum from main.rs. -/
inductive Log where
  | IncompleteWave
  | DirectDecision (fields : DirectDecisionFields)
  | IndirectDecision (fields : IndirectDecisionFields)
  | Error
  | UnableToDecide
deriving DecidableEq

/-- `Decision` from main.rs: a status, the decided block, and a log. -/
structure Decision where
  status : ProposerSlotState
  block : BlockReference
  log : Log
deriving DecidableEq

/-- `BlockStore = HashMap<BigInt, HashMap<BigInt, StatementBlock>>`:
outer key is the round, inner key the authority.  Modelled as nested
association lists in the maps' iteration order. -/
abbrev BlockStore := List (Int × List (Int × StatementBlock))

/-- The colors used by the visualizer (the subset of `ratatui::Color`
the program mentions). -/
inductive Color where
  | Green
  | Red
  | Blue
  | Gray
  | White
  | Yellow
deriving DecidableEq

/-- `coordinates(authority, round)` from main.rs:
`x = round * 15.0`, `y = (3.0 - authority) * 5.0 + 1.5`, with `f64`
arithmetic modelled exactly over `ℚ`. -/
def coordinates (authority : Int) (round : Int) : ℚ × ℚ :=
  ((round : ℚ) * 15, (3 - (authority : ℚ)) * 5 + 3 / 2)

/-- `color_from_status` from main.rs. -/
def color_from_status : ProposerSlotState → Color
  | ProposerSlotState.Commit => Color.Green
  | ProposerSlotState.Skip => Color.Red
  | ProposerSlotState.Undecided => Color.Blue

/-- Rust `Debug` escaping of a string character (`"` and `\` are escaped;
other escapes do not arise in trace labels). -/
def debugChar (c : Char) : String :=
  if c = '\"' then "\\\"" else if c = '\\' then "\\\\" else String.singleton c

/-- Rust `{:?}` rendering of a `String`. -/
def debugString (s : String) : String :=
  "\"" ++ String.join (s.toList.map debugChar) ++ "\""

/-- Rust `{:?}` rendering of a `Vec<String>`. -/
def debugStringList (xs : List String) : String :=
  "[" ++ String.intercalate ", " (xs.map debugString) ++ "]"

/-- Rust `{:?}` rendering of a `Vec<(String, String)>`. -/
def debugEdgeList (xs : List Edge) : String :=
  "[" ++ String.intercalate ", "
    (xs.map (fun e => "(" ++ debugString e.1 ++ ", " ++ debugString e.2 ++ ")")) ++ "]"

/-- Rust `{:?}` rendering of a `ProposerSlotState`. -/
def debugStatus : ProposerSlotState → String
  | ProposerSlotState.Commit => "Commit"
  | ProposerSlotState.Skip => "Skip"
  | ProposerSlotState.Undecided => "Undecided"

/-- `show_log` from main.rs. -/
def show_log : Log → String
  | Log.IncompleteWave => "IncompleteWave"
  | Log.DirectDecision fields =>
      "DirectDecision, certificate blocks: " ++ debugStringList fields.certificate_blocks
  | Log.IndirectDecision fields =>
      "IndirectDecision, anchor: " ++ fields.anchor ++ ", edges: " ++ debugEdgeList fields.edges
  | Log.Error => "Error"
  | Log.UnableToDecide => "UnableToDecide"

/-- One primitive of the draw-list handed to the render driver: a line
between two coordinates, a point, or a piece of styled text, each with a
color. -/
inductive DrawItem where
  | line (x1 y1 x2 y2 : ℚ) (color : Color)
  | point (x y : ℚ) (color : Color)
  | text (x y : ℚ) (s : String) (color : Color)
deriving DecidableEq

/-- The edge-color match from `draw_dag` (main.rs lines 133-159): the most
recent decision's log is consulted; a `DirectDecision` highlights an edge
whose `(parent, child)` label pair or its reverse occurs in
`supporting_edges`, an `IndirectDecision` does the same against `edges`;
every other variant yields `None`, and the result defaults to white. -/
def edgeColor (decision : Decision) (parentLabel childLabel : String) : Color :=
  (match decision.log with
    | Log.DirectDecision fields =>
        if fields.supporting_edges.any (fun e =>
            (e.1 == parentLabel && e.2 == childLabel)
              || (e.1 == childLabel && e.2 == parentLabel))
        then some Color.Green else none
    | Log.IndirectDecision fields =>
        if fields.edges.any (fun e =>
            (e.1 == parentLabel && e.2 == childLabel)
              || (e.1 == childLabel && e.2 == parentLabel))
        then some Color.Green else none
    | _ => none).getD Color.White

/-- The edge vector built by `draw_dag` (main.rs lines 125-169): for every
block in store-iteration order and every parent reference, one line from the
parent's coordinate (computed from the reference's own authority and round
fields) to the block's coordinate. -/
def dagEdges (blocks : BlockStore) (decision : Decision) : List DrawItem :=
  blocks.flatMap (fun p =>
    p.2.flatMap (fun q =>
      let xy := coordinates q.1 p.1
      q.2.parents.map (fun parent =>
        let ixy := coordinates parent.authority parent.round
        DrawItem.line ixy.1 ixy.2 xy.1 xy.2
          (edgeColor decision parent.label q.2.reference.label))))

/-- The node-color lookup from `draw_dag` (main.rs lines 198-207):
`find_map` over the whole decision sequence for the first decision whose
block equals this reference, defaulting to gray. -/
def nodeColor (decisions : List Decision) (ref : BlockReference) : Color :=
  (decisions.findSome? (fun d =>
    if d.block = ref then some (color_from_status d.status) else none)).getD Color.Gray

/-- The status line printed inside the canvas (main.rs lines 179-193):
present whenever the decision slice is nonempty, colored by the most recent
decision's status. -/
def statusLine (decisions : List Decision) : List DrawItem :=
  match decisions.getLast? with
  | none => []
  | some last =>
      [DrawItem.text 15 18
        (debugString last.block.label ++ ": " ++ debugStatus last.status ++ " "
          ++ show_log last.log)
        (color_from_status last.status)]

/-- The per-block draw items (main.rs lines 196-238): the optional anchor
annotation (printed at the fixed position (18, 17), colored by the most
recent decision's status — the node recoloring is commented out in the
source), then the node point and its label text, both in the node's own
status color. -/
def nodeItems (decisions : List Decision) (decision : Decision)
    (round authority : Int) (block : StatementBlock) : List DrawItem :=
  let color := nodeColor decisions block.reference
  let anchorItems :=
    match decision.log with
    | Log.IndirectDecision fields =>
        if fields.anchor = block.reference.label then
          [DrawItem.text 18 17 ("Anchor: " ++ fields.anchor)
            (color_from_status decision.status)]
        else []
    | _ => []
  let xy := coordinates authority round
  anchorItems ++
    [DrawItem.point xy.1 xy.2 color,
     DrawItem.text xy.1 xy.2 block.reference.label color]

/-- All node-related items of `draw_dag`, in store-iteration order. -/
def dagNodes (blocks : BlockStore) (decisions : List Decision) (decision : Decision) :
    List DrawItem :=
  blocks.flatMap (fun p => p.2.flatMap (fun q => nodeItems decisions decision p.1 q.1 q.2))

/-- `draw_dag` from main.rs as a pure draw-list builder.  Line 124 performs
`decisions.last().unwrap()`, which panics when the decision slice is empty:
that path is `none`.  Otherwise the emitted draw-list is the edge lines,
then the status line, then the per-block items. -/
def drawDag (blocks : BlockStore) (decisions : List Decision) : Option (List DrawItem) :=
  match decisions.getLast? with
  | none => none
  | some decision =>
      some (dagEdges blocks decision ++ statusLine decisions
        ++ dagNodes blocks decisions decision)

/-- The retreat handler from `main` (main.rs lines 277-281):
`if i > 1 { i -= 1 }`. -/
def retreat (i : Nat) : Nat :=
  if i > 1 then i - 1 else i

/-- The keys `main` distinguishes: `q`, `l`/right, `h`/left, anything else. -/
inductive Key where
  | q
  | l
  | h
  | other
deriving DecidableEq

/-- The outcome of one iteration of `main`'s event loop, as observed by the
program: the draw succeeded and the poll timed out; the draw succeeded and a
key arrived; or `terminal.draw`, `event::poll` or `event::read` returned an
I/O error (which `?` propagates out of `main`). -/
inductive LoopEvent where
  | timeout
  | key (k : Key)
  | drawErr
  | pollErr
  | readErr
deriving DecidableEq

/-- How `main` terminated. -/
inductive ExitKind where
  | quit
  | exhausted
  | ioError
deriving DecidableEq

/-- A terminated run of `main`: how it exited and whether
`restore_terminal` (disable raw mode, leave the alternate screen) ran
before the exit. -/
structure ExitResult where
  kind : ExitKind
  restored : Bool
deriving DecidableEq

/-- `main`'s event loop (main.rs lines 262-287) over a script of iteration
outcomes.  `n` is `decisions.len()`, `i` the cursor.  Each iteration first
checks `i >= n` (exhaustion exits via `restore_terminal`), then invokes
`terminal.draw` with the slice `decisions[0..=i]` (the cursor value of every
such draw call is recorded), then polls for input.  An I/O error anywhere is
propagated by `?` without running `restore_terminal`; `q` exits via
`restore_terminal`; `l` increments the cursor unconditionally; `h` applies
`retreat`.  When the script is exhausted the loop is still running (`none`). -/
def runMain (n : Nat) : Nat → List LoopEvent → List Nat × Option ExitResult
  | i, [] =>
      if n ≤ i then ([], some ⟨ExitKind.exhausted, true⟩) else ([], none)
  | i, e :: rest =>
      if n ≤ i then ([], some ⟨ExitKind.exhausted, true⟩)
      else
        match e with
        | LoopEvent.drawErr => ([i], some ⟨ExitKind.ioError, false⟩)
        | LoopEvent.pollErr => ([i], some ⟨ExitKind.ioError, false⟩)
        | LoopEvent.readErr => ([i], some ⟨ExitKind.ioError, false⟩)
        | LoopEvent.timeout =>
            let r := runMain n i rest
            (i :: r.1, r.2)
        | LoopEvent.key Key.q => ([i], some ⟨ExitKind.quit, true⟩)
        | LoopEvent.key Key.l =>
            let r := runMain n (i + 1) rest
            (i :: r.1, r.2)
        | LoopEvent.key Key.h =>
            let r := runMain n (retreat i) rest
            (i :: r.1, r.2)
        | LoopEvent.key Key.other =>
            let r := runMain n i rest
            (i :: r.1, r.2)

/-! ## Spec-side definitions

These follow the specification's words, for comparison against the
definitions above, which are translated from the source. -/

/-- The first decision of the sequence whose `.block` equals the given
reference, if any (the scan underlying both the spec's `statusOf` and the
code's node coloring). -/
def statusOfFound (decisions : List Decision) (ref : BlockReference) :
    Option ProposerSlotState :=
  decisions.findSome? (fun d => if d.block = ref then some d.status else none)

/-- Modelled from the spec: `statusOf(blockRef)` scans the decision sequence
for an entry whose `.block` equals `blockRef` and returns its `status` if
found, else `Undecided`. -/
def statusOfSpec (decisions : List Decision) (ref : BlockReference) :
    ProposerSlotState :=
  (statusOfFound decisions ref).getD ProposerSlotState.Undecided

/-- The claim's supporting-edge predicate, literally as stated: the most
recent decision's log is `DirectDecision` and `(parent, child)` **or its
reverse** appears in `supporting_edges`, or the log is `IndirectDecision`
and **the pair** `(parent, child)` appears in `edges`. -/
def isSupportingEdgeClaim (decision : Decision)
    (parentLabel childLabel : String) : Bool :=
  match decision.log with
  | Log.DirectDecision fields =>
      fields.supporting_edges.contains (parentLabel, childLabel)
        || fields.supporting_edges.contains (childLabel, parentLabel)
  | Log.IndirectDecision fields =>
      fields.edges.contains (parentLabel, childLabel)
  | _ => false

/-- The supporting-edge predicate the code actually implements: for both
`DirectDecision` and `IndirectDecision`, the pair or its reverse is looked
up (in `supporting_edges`, respectively `edges`). -/
def isSupportingEdgeCode (decision : Decision)
    (parentLabel childLabel : String) : Bool :=
  match decision.log with
  | Log.DirectDecision fields =>
      fields.supporting_edges.contains (parentLabel, childLabel)
        || fields.supporting_edges.contains (childLabel, parentLabel)
  | Log.IndirectDecision fields =>
      fields.edges.contains (parentLabel, childLabel)
        || fields.edges.contains (childLabel, parentLabel)
  | _ => false

/-- Whether a draw item is a line (an edge of the DAG). -/
def isLine : DrawItem → Bool
  | DrawItem.line _ _ _ _ _ => true
  | _ => false

/-- Number of edge lines in a draw-list. -/
def countLines (items : List DrawItem) : Nat :=
  (items.filter isLine).length

/-- Total number of parent references over all blocks of a store. -/
def parentCount (blocks : BlockStore) : Nat :=
  (blocks.map (fun p => (p.2.map (fun q => q.2.parents.length)).sum)).sum

/-- The (string, color) pairs of the text items of a draw-list, in order:
the status line, anchor annotations, and the per-node label texts (each
label text carries the node's rendered color, main.rs lines 232-236). -/
def textItems : List DrawItem → List (String × Color)
  | [] => []
  | DrawItem.text _ _ s c :: rest => (s, c) :: textItems rest
  | _ :: rest => textItems rest

/-- The colors of the line items of a draw-list, in order. -/
def lineColors : List DrawItem → List Color
  | [] => []
  | DrawItem.line _ _ _ _ c :: rest => c :: lineColors rest
  | _ :: rest => lineColors rest

/-! ## Helper lemmas -/

/-- The `find_map` in the node coloring computes exactly the status scan
followed by the status→color table, with gray as the no-match fallback. -/
theorem nodeColor_eq_statusOfFound (decisions : List Decision) (ref : BlockReference) :
    nodeColor decisions ref =
      match statusOfFound decisions ref with
      | some s => color_from_status s
      | none => Color.Gray := by
  induction decisions with
  | nil => rfl
  | cons d ds ih =>
    by_cases h : d.block = ref
    · simp [nodeColor, statusOfFound, List.findSome?_cons, h]
    · simpa [nodeColor, statusOfFound, List.findSome?_cons, h] using ih

/-- The symmetric pair search the edge coloring performs equals membership
of the pair or its reverse. -/
theorem any_pair_eq_contains (l : List Edge) (pl cl : String) :
    (l.any fun e => (e.1 == pl && e.2 == cl) || (e.1 == cl && e.2 == pl))
      = (l.contains (pl, cl) || l.contains (cl, pl)) := by
  apply Bool.eq_iff_iff.mpr
  simp only [List.any_eq_true, Bool.or_eq_true, Bool.and_eq_true, beq_iff_eq,
    List.contains, List.elem_iff]
  constructor
  · rintro ⟨⟨a, b⟩, hmem, ⟨h1, h2⟩ | ⟨h1, h2⟩⟩
    · subst h1; subst h2; exact Or.inl hmem
    · subst h1; subst h2; exact Or.inr hmem
  · rintro (h | h)
    · exact ⟨(pl, cl), h, Or.inl ⟨rfl, rfl⟩⟩
    · exact ⟨(cl, pl), h, Or.inr ⟨rfl, rfl⟩⟩

/-- The edge color the code computes, characterized by the supporting-edge
predicate it implements: green exactly on supporting edges, white otherwise. -/
theorem edgeColor_eq_code_predicate (d : Decision) (pl cl : String) :
    edgeColor d pl cl =
      if isSupportingEdgeCode d pl cl then Color.Green else Color.White := by
  unfold edgeColor isSupportingEdgeCode
  cases d.log with
  | DirectDecision fields =>
      dsimp only
      rw [any_pair_eq_contains]
      cases h : (fields.supporting_edges.contains (pl, cl)
          || fields.supporting_edges.contains (cl, pl)) <;> simp [h]
  | IndirectDecision fields =>
      dsimp only
      rw [any_pair_eq_contains]
      cases h : (fields.edges.contains (pl, cl)
          || fields.edges.contains (cl, pl)) <;> simp [h]
  | IncompleteWave => rfl
  | Error => rfl
  | UnableToDecide => rfl

/-- Unfolding `drawDag` when the decision slice is nonempty. -/
theorem drawDag_eq_some {decisions : List Decision} {d : Decision}
    (blocks : BlockStore) (hlast : decisions.getLast? = some d) :
    drawDag blocks decisions =
      some (dagEdges blocks d ++ statusLine decisions
        ++ dagNodes blocks decisions d) := by
  unfold drawDag
  rw [hlast]

/-- Any item of a block's `nodeItems` occurs in `dagNodes` when the block is
in the store. -/
theorem mem_dagNodes {blocks : BlockStore} {decisions : List Decision}
    {decision : Decision} {r a : Int} {inner : List (Int × StatementBlock)}
    {b : StatementBlock} {x : DrawItem}
    (hr : (r, inner) ∈ blocks) (hb : (a, b) ∈ inner)
    (hx : x ∈ nodeItems decisions decision r a b) :
    x ∈ dagNodes blocks decisions decision := by
  unfold dagNodes
  exact List.mem_flatMap.mpr ⟨(r, inner), hr, List.mem_flatMap.mpr ⟨(a, b), hb, hx⟩⟩

/-- Every parent reference of a stored block contributes its line to
`dagEdges`. -/
theorem mem_dagEdges {blocks : BlockStore} {decision : Decision} {r a : Int}
    {inner : List (Int × StatementBlock)} {b : StatementBlock} {p : BlockReference}
    (hr : (r, inner) ∈ blocks) (hb : (a, b) ∈ inner) (hp : p ∈ b.parents) :
    DrawItem.line (coordinates p.authority p.round).1 (coordinates p.authority p.round).2
      (coordinates a r).1 (coordinates a r).2
      (edgeColor decision p.label b.reference.label) ∈ dagEdges blocks decision := by
  unfold dagEdges
  refine List.mem_flatMap.mpr ⟨(r, inner), hr, List.mem_flatMap.mpr ⟨(a, b), hb, ?_⟩⟩
  exact List.mem_map.mpr ⟨p, hp, rfl⟩

/-! ## Claim C1 -/

/-- C1: the claim says `draw_dag` on an empty decision sequence succeeds
with all nodes neutral, all edges default and no status line.  The code
instead executes `decisions.last().unwrap()` (main.rs line 124) before
anything is drawn, which panics on an empty slice — for every block store
the builder fails.  The defensive `if let Some(last_result) =
decisions.last()` at line 179 shows the empty case was meant to be
tolerated, so this is a bug in the code. -/
theorem c1_drawDag_empty_decisions_panics (blocks : BlockStore) :
    drawDag blocks [] = none := rfl

/-! ## Claim C5 -/

/-- C5 counterexample: at cursor 0 the code's retreat handler
(`if i > 1 { i -= 1 }`) stays at 0, while the claimed formula
`max(1, i-1)` yields 1 — the claim fails at cursor 0. -/
theorem c5_counterexample :
    retreat 0 = 0 ∧ max 1 ((0 : Int) - 1) = 1 ∧ ((0 : Int) ≠ 1) := by decide

/-- C5 (amended): in the prefix-replay variant, for every cursor `i ≥ 1`
the retreat operation sets the cursor to `max(1, i-1)`; at cursor 0 it is a
no-op that stays at 0 (below the variant's lower bound of 1, which retreat
can never itself reach from above). -/
theorem c5_retreat_clamps_above_one :
    (∀ i : Nat, 1 ≤ i → ((retreat i : Nat) : Int) = max 1 ((i : Int) - 1))
      ∧ retreat 0 = 0 := by
  constructor
  · intro i hi
    unfold retreat
    split <;> omega
  · rfl

/-- C5 witness: at cursor 3, retreat yields `max(1, 2) = 2`. -/
theorem c5_retreat_witness :
    ((retreat 3 : Nat) : Int) = max 1 ((3 : Int) - 1) :=
  c5_retreat_clamps_above_one.1 3 (by decide)

/-! ## Claim C6 -/

/-- C6: the claim (and §5 of the spec) says raw terminal mode is restored
on every exit path of `main`.  The `?` operators on `terminal.draw`,
`event::poll` and `event::read` propagate an I/O error straight out of
`main` without calling `restore_terminal`, so the error exit path leaves
the terminal in raw mode; the quit and exhaustion paths do restore.  The
spec explicitly demands a guaranteed-release mechanism rather than
happy-path cleanup, so the code is the slip. -/
theorem c6_io_error_exit_skips_restore :
    runMain 2 0 [LoopEvent.drawErr] = ([0], some ⟨ExitKind.ioError, false⟩)
      ∧ runMain 2 0 [LoopEvent.pollErr] = ([0], some ⟨ExitKind.ioError, false⟩)
      ∧ runMain 2 0 [LoopEvent.key Key.q] = ([0], some ⟨ExitKind.quit, true⟩)
      ∧ runMain 1 1 [] = ([], some ⟨ExitKind.exhausted, true⟩) := by decide

/-! ## Claim C7 -/

/-- C7: `coordinates` is a pure, deterministic function of (authority,
round) — identical inputs yield identical outputs — and for a fixed
authority the x component is strictly increasing in the round.  (The
source's `f64` arithmetic is exact on the small-integer domain occurring
in traces, which the `ℚ` model reflects.) -/
theorem c7_coordinates_pure_and_monotone :
    (∀ a r a2 r2 : Int, a = a2 → r = r2 → coordinates a r = coordinates a2 r2)
      ∧ (∀ a r1 r2 : Int, r1 < r2 →
          (coordinates a r1).1 < (coordinates a r2).1) := by
  constructor
  · intro a r a2 r2 ha hr
    rw [ha, hr]
  · intro a r1 r2 h
    have hq : (r1 : ℚ) < (r2 : ℚ) := by exact_mod_cast h
    simpa [coordinates] using mul_lt_mul_of_pos_right hq (by norm_num : (0 : ℚ) < 15)

/-- C7 witness: rounds 1 < 2 at authority 0 give strictly increasing x. -/
theorem c7_coordinates_witness :
    (coordinates 0 1).1 < (coordinates 0 2).1 :=
  c7_coordinates_pure_and_monotone.2 0 1 2 (by decide)

/-! ## Claim C8 -/

/-- C8: the layout builder is deterministic — run twice on the same
(block store, decision sequence) input it produces identical draw-lists;
the embedding is a pure function of the store's iteration sequence and the
decision slice, so equal inputs give equal outputs. -/
theorem c8_drawDag_deterministic (b1 b2 : BlockStore) (d1 d2 : List Decision)
    (hb : b1 = b2) (hd : d1 = d2) : drawDag b1 d1 = drawDag b2 d2 := by
  rw [hb, hd]

/-- C8 witness: the empty store and a singleton decision list, twice. -/
theorem c8_drawDag_witness :
    drawDag [] [⟨ProposerSlotState.Commit, ⟨0, 0, "A"⟩, Log.IncompleteWave⟩]
      = drawDag [] [⟨ProposerSlotState.Commit, ⟨0, 0, "A"⟩, Log.IncompleteWave⟩] :=
  c8_drawDag_deterministic _ _ _ _ rfl rfl

/-! ## Claim C2

Concrete scenario: block A was decided `Commit` earlier; the most recent
decision is a `Skip` of slot B, justified by an `IndirectDecision` whose
anchor is A. -/

/-- Reference of block A in the C2 scenario. -/
def c2RefA : BlockReference := ⟨0, 0, "A"⟩

/-- Reference of slot B in the C2 scenario. -/
def c2RefB : BlockReference := ⟨1, 0, "B"⟩

/-- The most recent decision's indirect-decision fields (anchor A). -/
def c2Fields : IndirectDecisionFields := ⟨"A", []⟩

/-- The most recent decision of the C2 scenario: slot B skipped via the
anchor A. -/
def c2Last : Decision := ⟨ProposerSlotState.Skip, c2RefB, Log.IndirectDecision c2Fields⟩

/-- Store holding only block A. -/
def c2Blocks : BlockStore := [(0, [(0, ⟨c2RefA, []⟩)])]

/-- Decision sequence: A committed first, then the indirect skip of B. -/
def c2Decisions : List Decision :=
  [⟨ProposerSlotState.Commit, c2RefA, Log.IncompleteWave⟩, c2Last]

/-- C2 counterexample: `statusOf` of block A is `Commit`, so the claim
demands a green anchor annotation; the code colors the annotation with the
*most recent decision's* status (`Skip` → red) instead — the draw-list
contains the red annotation text and no green one. -/
theorem c2_counterexample :
    color_from_status (statusOfSpec c2Decisions c2RefA) = Color.Green
      ∧ ("Anchor: A", Color.Red)
          ∈ textItems ((drawDag c2Blocks c2Decisions).getD [])
      ∧ ("Anchor: A", Color.Green)
          ∉ textItems ((drawDag c2Blocks c2Decisions).getD []) := by decide

/-- C2 (amended): whenever the most recent decision's log is
`IndirectDecision` with anchor label A and some block in the store has
label A, the builder emits the anchor annotation referencing A colored with
the **most recent decision's** status color (not with block A's own
`statusOf` color), and block A's node keeps its own status color, not
overridden by the anchor highlight. -/
theorem c2_anchor_annotation_latest_status
    (blocks : BlockStore) (decisions : List Decision) (d : Decision)
    (fields : IndirectDecisionFields) (r a : Int)
    (inner : List (Int × StatementBlock)) (b : StatementBlock)
    (hlast : decisions.getLast? = some d)
    (hlog : d.log = Log.IndirectDecision fields)
    (hr : (r, inner) ∈ blocks) (hb : (a, b) ∈ inner)
    (hanchor : b.reference.label = fields.anchor) :
    ∃ L, drawDag blocks decisions = some L
      ∧ DrawItem.text 18 17 ("Anchor: " ++ fields.anchor)
          (color_from_status d.status) ∈ L
      ∧ DrawItem.point (coordinates a r).1 (coordinates a r).2
          (nodeColor decisions b.reference) ∈ L := by
  refine ⟨_, drawDag_eq_some blocks hlast, ?_, ?_⟩
  · refine List.mem_append.mpr (Or.inr (mem_dagNodes hr hb ?_))
    simp only [nodeItems, hlog, hanchor]
    simp
  · refine List.mem_append.mpr (Or.inr (mem_dagNodes hr hb ?_))
    simp only [nodeItems, hlog, hanchor]
    simp

/-- C2 witness: the amended theorem applied to the concrete C2 scenario. -/
theorem c2_anchor_witness :
    ∃ L, drawDag c2Blocks c2Decisions = some L
      ∧ DrawItem.text 18 17 ("Anchor: " ++ c2Fields.anchor)
          (color_from_status c2Last.status) ∈ L
      ∧ DrawItem.point (coordinates 0 0).1 (coordinates 0 0).2
          (nodeColor c2Decisions c2RefA) ∈ L :=
  c2_anchor_annotation_latest_status c2Blocks c2Decisions c2Last c2Fields 0 0
    [(0, ⟨c2RefA, []⟩)] ⟨c2RefA, []⟩ (by decide) rfl (by decide) (by decide) rfl

/-! ## Claim C3

Concrete scenario: block A has no matching decision; block B is explicitly
decided `Undecided`. -/

/-- Reference of block A (never decided) in the C3 scenario. -/
def c3RefA : BlockReference := ⟨0, 0, "A"⟩

/-- Reference of block B (explicitly `Undecided`) in the C3 scenario. -/
def c3RefB : BlockReference := ⟨1, 0, "B"⟩

/-- Store holding blocks A and B at round 0. -/
def c3Blocks : BlockStore := [(0, [(0, ⟨c3RefA, []⟩), (1, ⟨c3RefB, []⟩)])]

/-- Single decision: B explicitly `Undecided`. -/
def c3Decisions : List Decision :=
  [⟨ProposerSlotState.Undecided, c3RefB, Log.IncompleteWave⟩]

/-- C3 counterexample: the claim demands block A (no matching decision) be
rendered in the table color of `statusOf(A) = Undecided`, i.e. the same
neutral color (blue) as the explicitly-`Undecided` block B.  The code
renders A gray (the `unwrap_or(Color::Gray)` fallback) and B blue — two
different colors, as witnessed by the node label texts, which carry each
node's rendered color. -/
theorem c3_counterexample :
    color_from_status (statusOfSpec c3Decisions c3RefA) = Color.Blue
      ∧ ("A", Color.Gray) ∈ textItems ((drawDag c3Blocks c3Decisions).getD [])
      ∧ ("A", Color.Blue) ∉ textItems ((drawDag c3Blocks c3Decisions).getD [])
      ∧ ("B", Color.Blue) ∈ textItems ((drawDag c3Blocks c3Decisions).getD [])
      := by decide

/-- C3 (amended): every block's rendered node color is the status of the
first decision whose `.block` equals the block's reference, mapped through
the fixed status→color table, when such a decision exists; a block with no
matching decision is rendered gray — a fallback color distinct from the
neutral (blue) color of a block explicitly decided `Undecided`. -/
theorem c3_node_color_first_match_else_gray
    (blocks : BlockStore) (decisions : List Decision) (L : List DrawItem)
    (r a : Int) (inner : List (Int × StatementBlock)) (b : StatementBlock)
    (hdraw : drawDag blocks decisions = some L)
    (hr : (r, inner) ∈ blocks) (hb : (a, b) ∈ inner) :
    DrawItem.point (coordinates a r).1 (coordinates a r).2
        (nodeColor decisions b.reference) ∈ L
      ∧ nodeColor decisions b.reference =
          (match statusOfFound decisions b.reference with
           | some s => color_from_status s
           | none => Color.Gray)
      ∧ color_from_status ProposerSlotState.Undecided ≠ Color.Gray := by
  obtain ⟨d, hlast⟩ : ∃ d, decisions.getLast? = some d := by
    cases h : decisions.getLast? with
    | none =>
        rw [drawDag, h] at hdraw
        exact absurd hdraw (by simp)
    | some d => exact ⟨d, rfl⟩
  have hL : L = dagEdges blocks d ++ statusLine decisions
      ++ dagNodes blocks decisions d := by
    have h2 := drawDag_eq_some blocks hlast
    rw [hdraw] at h2
    exact Option.some.inj h2
  refine ⟨?_, nodeColor_eq_statusOfFound decisions b.reference, by decide⟩
  subst hL
  refine List.mem_append.mpr (Or.inr (mem_dagNodes hr hb ?_))
  simp only [nodeItems]
  exact List.mem_append.mpr (Or.inr (by simp))

/-- C3 witness: the amended theorem applied to the concrete C3 scenario. -/
theorem c3_node_color_witness :
    DrawItem.point (coordinates 0 0).1 (coordinates 0 0).2
        (nodeColor c3Decisions c3RefA) ∈ (drawDag c3Blocks c3Decisions).getD []
      ∧ nodeColor c3Decisions c3RefA =
          (match statusOfFound c3Decisions c3RefA with
           | some s => color_from_status s
           | none => Color.Gray)
      ∧ color_from_status ProposerSlotState.Undecided ≠ Color.Gray :=
  c3_node_color_first_match_else_gray c3Blocks c3Decisions
    ((drawDag c3Blocks c3Decisions).getD []) 0 0
    [(0, ⟨c3RefA, []⟩), (1, ⟨c3RefB, []⟩)] ⟨c3RefA, []⟩
    rfl (by decide) (by decide)

/-! ## Claim C4

Concrete scenario: block B (round 1, authority 0) has parent A; the most
recent decision is an `IndirectDecision` whose `edges` holds only the
reversed pair `("B", "A")`. -/

/-- Parent reference A in the C4 scenario. -/
def c4RefA : BlockReference := ⟨1, 0, "A"⟩

/-- Child reference B in the C4 scenario. -/
def c4RefB : BlockReference := ⟨0, 1, "B"⟩

/-- Block B with parent A. -/
def c4Block : StatementBlock := ⟨c4RefB, [c4RefA]⟩

/-- Store holding only block B (parent A is referenced, not stored). -/
def c4Blocks : BlockStore := [(1, [(0, c4Block)])]

/-- Most recent decision: indirect, edges contain only `("B", "A")`. -/
def c4Last : Decision :=
  ⟨ProposerSlotState.Commit, c4RefB, Log.IndirectDecision ⟨"A", [("B", "A")]⟩⟩

/-- The decision sequence of the C4 scenario. -/
def c4Decisions : List Decision := [c4Last]

/-- C4 counterexample: the causal edge has parent label "A" and child label
"B"; the pair ("A","B") does **not** appear in the indirect decision's
`edges` (only its reverse does), so the claim's iff demands the default
white color — but the code also matches the reversed pair for
`IndirectDecision` and draws the single edge of this store green. -/
theorem c4_counterexample :
    isSupportingEdgeClaim c4Last "A" "B" = false
      ∧ c4Decisions.getLast? = some c4Last
      ∧ lineColors ((drawDag c4Blocks c4Decisions).getD []) = [Color.Green]
      := by decide

/-- C4 (amended): an edge from a block labeled C to a parent labeled P is
drawn in the highlight color iff the most recent decision's log is
`DirectDecision` and (P,C) or its reverse appears in `supportingEdges`,
**or** the log is `IndirectDecision` and (P,C) **or its reverse** appears in
`edges`; in every other case — including all other log variants — the edge
is drawn in the default white color. -/
theorem c4_edge_color_iff_supporting
    (blocks : BlockStore) (decisions : List Decision) (d : Decision)
    (L : List DrawItem) (r a : Int) (inner : List (Int × StatementBlock))
    (b : StatementBlock) (p : BlockReference)
    (hlast : decisions.getLast? = some d)
    (hdraw : drawDag blocks decisions = some L)
    (hr : (r, inner) ∈ blocks) (hb : (a, b) ∈ inner) (hp : p ∈ b.parents) :
    DrawItem.line (coordinates p.authority p.round).1
        (coordinates p.authority p.round).2
        (coordinates a r).1 (coordinates a r).2
        (if isSupportingEdgeCode d p.label b.reference.label then Color.Green
         else Color.White) ∈ L
      ∧ edgeColor d p.label b.reference.label =
          (if isSupportingEdgeCode d p.label b.reference.label then Color.Green
           else Color.White) := by
  have hL : L = dagEdges blocks d ++ statusLine decisions
      ++ dagNodes blocks decisions d := by
    have h2 := drawDag_eq_some blocks hlast
    rw [hdraw] at h2
    exact Option.some.inj h2
  refine ⟨?_, edgeColor_eq_code_predicate d _ _⟩
  subst hL
  refine List.mem_append.mpr (Or.inl (List.mem_append.mpr (Or.inl ?_)))
  rw [← edgeColor_eq_code_predicate]
  exact mem_dagEdges hr hb hp

/-- C4 witness: the amended theorem applied to the concrete C4 scenario. -/
theorem c4_edge_color_witness :
    DrawItem.line (coordinates 1 0).1 (coordinates 1 0).2
        (coordinates 0 1).1 (coordinates 0 1).2
        (if isSupportingEdgeCode c4Last "A" "B" then Color.Green
         else Color.White) ∈ (drawDag c4Blocks c4Decisions).getD []
      ∧ edgeColor c4Last "A" "B" =
          (if isSupportingEdgeCode c4Last "A" "B" then Color.Green
           else Color.White) :=
  c4_edge_color_iff_supporting c4Blocks c4Decisions c4Last
    ((drawDag c4Blocks c4Decisions).getD []) 1 0 [(0, c4Block)] c4Block c4RefA
    (by decide) rfl (by decide) (by decide) (by decide)

/-! ## Claim C9 -/

/-- In every run of `main`'s loop, each cursor value at which the draw is
invoked is strictly below the decision count: the `i >= decisions.len()`
check at the top of each iteration exits before drawing. -/
theorem runMain_draws_bound (n : Nat) (events : List LoopEvent) :
    ∀ i j, j ∈ (runMain n i events).1 → j < n := by
  induction events with
  | nil =>
      intro i j hj
      unfold runMain at hj
      split at hj <;> simp at hj
  | cons e rest ih =>
      intro i j hj
      unfold runMain at hj
      split at hj
      · simp at hj
      · rename_i hni
        cases e with
        | timeout =>
            simp only at hj
            rcases List.mem_cons.mp hj with h1 | h1
            · omega
            · exact ih i j h1
        | drawErr => simp at hj; omega
        | pollErr => simp at hj; omega
        | readErr => simp at hj; omega
        | key k =>
            cases k with
            | q => simp at hj; omega
            | l =>
                simp only at hj
                rcases List.mem_cons.mp hj with h1 | h1
                · omega
                · exact ih (i + 1) j h1
            | h =>
                simp only at hj
                rcases List.mem_cons.mp hj with h1 | h1
                · omega
                · exact ih (retreat i) j h1
            | other =>
                simp only at hj
                rcases List.mem_cons.mp hj with h1 | h1
                · omega
                · exact ih i j h1

/-- `draw_dag` succeeds (the `decisions.last().unwrap()` cannot panic)
whenever the decision slice is nonempty. -/
theorem drawDag_isSome (blocks : BlockStore) {l : List Decision} (h : l ≠ []) :
    (drawDag blocks l).isSome = true := by
  cases hl : l.getLast? with
  | none => exact absurd (List.getLast?_eq_none_iff.mp hl) h
  | some d => simp [drawDag, hl]

/-- C9: throughout `main`'s event loop (started at cursor 0), whenever
`draw_dag` is invoked the cursor `j` satisfies `j < decisions.len()`, so the
slice `decisions[0..=j]` is in-bounds and nonempty and the
`decisions.last().unwrap()` inside `draw_dag` cannot panic — even though
the advance key increments the cursor without an upper-bound check, the
exhaustion test at the top of each iteration runs first. -/
theorem c9_draw_slice_in_bounds
    (n : Nat) (events : List LoopEvent) (j : Nat)
    (blocks : BlockStore) (ds : List Decision)
    (hn : ds.length = n)
    (hj : j ∈ (runMain n 0 events).1) :
    j < n ∧ List.take (j + 1) ds ≠ []
      ∧ (drawDag blocks (List.take (j + 1) ds)).isSome = true := by
  have hlt : j < n := runMain_draws_bound n events 0 j hj
  have hne : List.take (j + 1) ds ≠ [] := by
    rw [Ne, List.take_eq_nil_iff]
    rintro (h | h)
    · omega
    · subst h
      simp at hn
      omega
  exact ⟨hlt, hne, drawDag_isSome blocks hne⟩

/-- A decision for the C9 witness run. -/
def c9Decision : Decision :=
  ⟨ProposerSlotState.Undecided, ⟨0, 0, "A"⟩, Log.IncompleteWave⟩

/-- C9 witness: a one-decision run with a single timed-out poll draws at
cursor 0 with a nonempty in-bounds slice. -/
theorem c9_draw_slice_witness :
    0 < 1 ∧ List.take (0 + 1) [c9Decision] ≠ []
      ∧ (drawDag [] (List.take (0 + 1) [c9Decision])).isSome = true :=
  c9_draw_slice_in_bounds 1 [LoopEvent.timeout] 0 [] [c9Decision]
    (by decide) (by decide)

/-! ## Claim C10 -/

/-- Line counting distributes over append. -/
theorem countLines_append (l1 l2 : List DrawItem) :
    countLines (l1 ++ l2) = countLines l1 + countLines l2 := by
  simp [countLines, List.filter_append]

/-- A map that only builds lines contributes one line per element. -/
theorem countLines_map_line {α : Type} (f : α → DrawItem)
    (hf : ∀ x, isLine (f x) = true) (l : List α) :
    countLines (l.map f) = l.length := by
  induction l with
  | nil => rfl
  | cons a t ih =>
      simp only [List.map_cons, countLines, List.filter_cons, hf a, if_true,
        List.length_cons] at *
      omega

/-- The edge vector holds exactly one line per parent reference of every
block of the store. -/
theorem countLines_dagEdges (blocks : BlockStore) (d : Decision) :
    countLines (dagEdges blocks d) = parentCount blocks := by
  induction blocks with
  | nil => rfl
  | cons p ps ih =>
      simp only [dagEdges, List.flatMap_cons, parentCount, List.map_cons,
        List.sum_cons] at *
      rw [countLines_append, ih]
      congr 1
      induction p.2 with
      | nil => rfl
      | cons q qs ih2 =>
          simp only [List.flatMap_cons, List.map_cons, List.sum_cons]
          rw [countLines_append, ih2]
          congr 1
          apply countLines_map_line
          intro x
          rfl

/-- The status line contributes no lines. -/
theorem countLines_statusLine (decisions : List Decision) :
    countLines (statusLine decisions) = 0 := by
  unfold statusLine
  cases decisions.getLast? <;> rfl

/-- No item of a block's `nodeItems` is a line. -/
theorem isLine_eq_false_of_mem_nodeItems {decisions : List Decision}
    {d : Decision} {r a : Int} {b : StatementBlock} {x : DrawItem}
    (h : x ∈ nodeItems decisions d r a b) : isLine x = false := by
  simp only [nodeItems] at h
  rcases List.mem_append.mp h with h1 | h1
  · cases hl : d.log with
    | IndirectDecision fields =>
        rw [hl] at h1
        simp only at h1
        by_cases hc : fields.anchor = b.reference.label
        · simp [hc] at h1
          subst h1
          rfl
        · simp [hc] at h1
    | IncompleteWave => rw [hl] at h1; simp at h1
    | DirectDecision fields => rw [hl] at h1; simp at h1
    | Error => rw [hl] at h1; simp at h1
    | UnableToDecide => rw [hl] at h1; simp at h1
  · rcases List.mem_cons.mp h1 with h2 | h2
    · subst h2; rfl
    · rcases List.mem_cons.mp h2 with h3 | h3
      · subst h3; rfl
      · simp at h3

/-- The node items contribute no lines. -/
theorem countLines_dagNodes (blocks : BlockStore) (decisions : List Decision)
    (d : Decision) : countLines (dagNodes blocks decisions d) = 0 := by
  rw [countLines, List.length_eq_zero, List.filter_eq_nil_iff]
  intro x hx
  rcases List.mem_flatMap.mp hx with ⟨p, hp, hx2⟩
  rcases List.mem_flatMap.mp hx2 with ⟨q, hq, hx3⟩
  simp [isLine_eq_false_of_mem_nodeItems hx3]

/-- C10: for every store and nonempty decision slice, the layout builder
succeeds regardless of whether referenced parents are present in the store,
emits exactly one edge line per parent reference (the count of line items
equals the total parent count), and every parent endpoint is computed from
the parent reference's own authority and round fields — no store lookup. -/
theorem c10_one_edge_per_parent_without_lookup
    (blocks : BlockStore) (decisions : List Decision)
    (hne : decisions ≠ []) :
    ∃ L, drawDag blocks decisions = some L
      ∧ countLines L = parentCount blocks
      ∧ ∀ r inner a b p, (r, inner) ∈ blocks → (a, b) ∈ inner →
          p ∈ b.parents →
          ∃ c, DrawItem.line (coordinates p.authority p.round).1
            (coordinates p.authority p.round).2
            (coordinates a r).1 (coordinates a r).2 c ∈ L := by
  obtain ⟨d, hlast⟩ : ∃ d, decisions.getLast? = some d := by
    cases hl : decisions.getLast? with
    | none => exact absurd (List.getLast?_eq_none_iff.mp hl) hne
    | some d => exact ⟨d, rfl⟩
  refine ⟨_, drawDag_eq_some blocks hlast, ?_, ?_⟩
  · rw [countLines_append, countLines_append, countLines_dagEdges,
      countLines_statusLine, countLines_dagNodes]
    omega
  · intro r inner a b p hr hb hp
    exact ⟨_, List.mem_append.mpr (Or.inl (List.mem_append.mpr
      (Or.inl (mem_dagEdges hr hb hp))))⟩

/-- Block of the C10 witness: stored block B whose parent A is absent from
the store. -/
def c10Block : StatementBlock := ⟨⟨0, 1, "B"⟩, [⟨1, 0, "A"⟩]⟩

/-- Store of the C10 witness. -/
def c10Blocks : BlockStore := [(1, [(0, c10Block)])]

/-- Decision sequence of the C10 witness. -/
def c10Decisions : List Decision :=
  [⟨ProposerSlotState.Undecided, ⟨0, 1, "B"⟩, Log.IncompleteWave⟩]

/-- C10 witness: the single-block store with a dangling parent reference. -/
theorem c10_one_edge_witness :
    ∃ L, drawDag c10Blocks c10Decisions = some L
      ∧ countLines L = parentCount c10Blocks
      ∧ ∀ r inner a b p, (r, inner) ∈ c10Blocks → (a, b) ∈ inner →
          p ∈ b.parents →
          ∃ c, DrawItem.line (coordinates p.authority p.round).1
            (coordinates p.authority p.round).2
            (coordinates a r).1 (coordinates a r).2 c ∈ L :=
  c10_one_edge_per_parent_without_lookup c10Blocks c10Decisions (by decide)

end Visualizer
